import Mathlib

/-!
Verification of the digiflazz-topup-simulator transaction core.

Shallow embedding of the server handlers:
* `processTopUp`   — src/server/src/handlers/process_topup (src/unnamed/part_007)
* `walletDeposit`  — src/server/src/handlers/wallet_deposit.ts
* `getUserById`, `getUserTransactions` — src/server/src/handlers/get_user_by_id.ts
* input schemas    — src/server/src/index.ts (zod schemas)

The database is a pure state (`DBState`); every drizzle select/insert/update
is a pure function on it.  Monetary amounts are rationals.  The single point
of nondeterminism — the Digiflazz gateway outcome `Math.random() > 0.1` — is a
boolean parameter.  The `await` point between the validation reads and the
debit-time balance re-read is modelled by an explicit `interfere` function on
the state (identity for a single sequential call).
-/

/-- `transaction_type` enum of the transactions table. -/
inductive TransactionType where
  | topup
  | wallet_deposit
  | wallet_withdrawal
deriving Repr, DecidableEq

/-- `status` enum of the transactions table. -/
inductive TxStatus where
  | pending
  | completed
  | failed
  | cancelled
deriving Repr, DecidableEq

/-- `payment_method` enum of the transactions table. -/
inductive PaymentMethod where
  | wallet
  | payment_gateway
deriving Repr, DecidableEq

/-- A row of `usersTable` (fields the transaction core reads or writes). -/
structure User where
  id : Nat
  wallet_balance : Rat
  created_at : Nat
  updated_at : Nat
deriving Repr, DecidableEq

/-- A row of `serviceProductsTable` (fields the transaction core reads). -/
structure ServiceProduct where
  id : Nat
  price : Rat
  is_active : Bool
deriving Repr, DecidableEq

/-- A row of `transactionsTable`, as in the `transactionSchema` zod object. -/
structure Transaction where
  id : Nat
  user_id : Nat
  transaction_type : TransactionType
  amount : Rat
  status : TxStatus
  payment_method : PaymentMethod
  reference_id : Option String
  product_id : Option Nat
  target_number : Option String
  digiflazz_reference : Option String
  created_at : Nat
  updated_at : Nat
deriving Repr, DecidableEq

/-- The database: the three tables, the serial id counter of the
transactions table, and the clock read by `Date.now()` / `new Date()`. -/
structure DBState where
  users : List User
  products : List ServiceProduct
  transactions : List Transaction
  nextTxId : Nat
  now : Nat
deriving Repr, DecidableEq

/-- `db.select().from(usersTable).where(eq(usersTable.id, uid))`. -/
def selectUser (s : DBState) (uid : Nat) : List User :=
  s.users.filter (fun u => u.id == uid)

/-- `db.select().from(serviceProductsTable).where(and(eq(id, pid), eq(is_active, true)))`. -/
def selectActiveProduct (s : DBState) (pid : Nat) : List ServiceProduct :=
  s.products.filter (fun p => p.id == pid && p.is_active)

/-- `db.insert(transactionsTable).values(t)` — the row carries the serial id
`s.nextTxId`, which the insert consumes. -/
def insertTransaction (s : DBState) (t : Transaction) : DBState :=
  { s with transactions := s.transactions ++ [t], nextTxId := s.nextTxId + 1 }

/-- `db.update(usersTable).set({wallet_balance, updated_at}).where(eq(id, uid))`. -/
def updateUserBalance (s : DBState) (uid : Nat) (newBalance : Rat) : DBState :=
  { s with users := s.users.map (fun u =>
      if u.id == uid then { u with wallet_balance := newBalance, updated_at := s.now }
      else u) }

/-- The field update performed by process_topup step 6 on the pending row:
`set({status, digiflazz_reference, updated_at})`. -/
def finalizeTopUpTx (now : Nat) (st : TxStatus) (dgf : String) (t : Transaction) : Transaction :=
  { t with status := st, digiflazz_reference := some dgf, updated_at := now }

/-- `db.update(transactionsTable).set({status, digiflazz_reference, updated_at})
.where(eq(id, txId))`. -/
def updateTransactionsFinal (s : DBState) (txId : Nat) (st : TxStatus) (dgf : String) :
    DBState :=
  { s with transactions := s.transactions.map (fun t =>
      if t.id == txId then finalizeTopUpTx s.now st dgf t else t) }

/-- The field update performed by wallet_deposit steps 4/5 on the pending row:
`set({status, updated_at})`. -/
def completeDepositTx (now : Nat) (st : TxStatus) (t : Transaction) : Transaction :=
  { t with status := st, updated_at := now }

/-- `db.update(transactionsTable).set({status, updated_at}).where(eq(id, txId))`. -/
def updateTransactionsStatus (s : DBState) (txId : Nat) (st : TxStatus) : DBState :=
  { s with transactions := s.transactions.map (fun t =>
      if t.id == txId then completeDepositTx s.now st t else t) }

/-- `topUpInputSchema` payload. -/
structure TopUpInput where
  user_id : Nat
  product_id : Nat
  target_number : String
  payment_method : PaymentMethod
deriving Repr, DecidableEq

/-- `walletDepositInputSchema` payload. -/
structure WalletDepositInput where
  user_id : Nat
  amount : Rat
  payment_method : PaymentMethod
deriving Repr, DecidableEq

/-- Errors thrown by the handlers (`throw new Error(...)`), plus the runtime
fault of reading `currentUsers[0]` from an empty select result and the
zod-schema rejection at the tRPC boundary. -/
inductive HandlerError where
  | productNotFoundOrInactive
  | userNotFound
  | insufficientBalance
  | runtimeError
  | invalidInput
deriving Repr, DecidableEq

/-- The `transactionData` literal built in process_topup step 3. -/
def pendingTopUpTransaction (s : DBState) (input : TopUpInput) (productPrice : Rat) :
    Transaction :=
  { id := s.nextTxId
    user_id := input.user_id
    transaction_type := .topup
    amount := productPrice
    status := .pending
    payment_method := input.payment_method
    reference_id :=
      if input.payment_method = .payment_gateway then some ("PAY_" ++ toString s.now)
      else none
    product_id := some input.product_id
    target_number := some input.target_number
    digiflazz_reference := none
    created_at := s.now
    updated_at := s.now }

/-- Steps 3–6 of process_topup: insert the pending row, cross the `await`
point (`interfere`), take the gateway outcome, debit the wallet on
wallet-paid success (re-reading the balance, exactly as the source does),
and finalize the row with the status and the `DGF_` reference. -/
def topUpCore (interfere : DBState → DBState) (isApiSuccess : Bool) (input : TopUpInput)
    (s : DBState) (productPrice : Rat) : Except HandlerError Transaction × DBState :=
  let transactionData := pendingTopUpTransaction s input productPrice
  let s₁ := insertTransaction s transactionData
  let s₂ := interfere s₁
  let digiflazzReference := "DGF_" ++ toString s₂.now
  let finalStatus : TxStatus := if isApiSuccess then .completed else .failed
  if input.payment_method = .wallet ∧ isApiSuccess then
    match selectUser s₂ input.user_id with
    | [] => (.error .runtimeError, s₂)
    | current :: _ =>
      let s₃ := updateUserBalance s₂ input.user_id (current.wallet_balance - productPrice)
      (.ok (finalizeTopUpTx s₃.now finalStatus digiflazzReference transactionData),
        updateTransactionsFinal s₃ transactionData.id finalStatus digiflazzReference)
  else
    (.ok (finalizeTopUpTx s₂.now finalStatus digiflazzReference transactionData),
      updateTransactionsFinal s₂ transactionData.id finalStatus digiflazzReference)

/-- `processTopUp` of src/unnamed/part_007, with the gateway outcome
(`Math.random() > 0.1`) and the interference at the `await` point explicit.
Steps 1–2: active-product lookup, user lookup (both payment methods check the
user exists; the wallet method additionally checks the balance).  An error
leaves the state exactly as it was when thrown. -/
def processTopUpWith (interfere : DBState → DBState) (isApiSuccess : Bool)
    (input : TopUpInput) (s : DBState) : Except HandlerError Transaction × DBState :=
  match selectActiveProduct s input.product_id with
  | [] => (.error .productNotFoundOrInactive, s)
  | product :: _ =>
    match selectUser s input.user_id with
    | [] => (.error .userNotFound, s)
    | user :: _ =>
      if input.payment_method = .wallet ∧ user.wallet_balance < product.price then
        (.error .insufficientBalance, s)
      else
        topUpCore interfere isApiSuccess input s product.price

/-- A single sequential `processTopUp` call: nothing runs at the await point. -/
def processTopUp (isApiSuccess : Bool) (input : TopUpInput) (s : DBState) :
    Except HandlerError Transaction × DBState :=
  processTopUpWith id isApiSuccess input s

/-- `walletDeposit` of src/server/src/handlers/wallet_deposit.ts: verify the
user exists, insert a pending `wallet_deposit` row, simulate the payment
gateway (`paymentSuccess = true` in the source), credit the balance read at
step 1, and complete the row. -/
def walletDeposit (input : WalletDepositInput) (s : DBState) :
    Except HandlerError Transaction × DBState :=
  match selectUser s input.user_id with
  | [] => (.error .userNotFound, s)
  | currentUser :: _ =>
    let referenceId := "PAY_" ++ toString s.now
    let transactionData : Transaction :=
      { id := s.nextTxId
        user_id := input.user_id
        transaction_type := .wallet_deposit
        amount := input.amount
        status := .pending
        payment_method := input.payment_method
        reference_id := some referenceId
        product_id := none
        target_number := none
        digiflazz_reference := none
        created_at := s.now
        updated_at := s.now }
    let s₁ := insertTransaction s transactionData
    let paymentSuccess := true
    if paymentSuccess then
      let newBalance := currentUser.wallet_balance + input.amount
      let s₂ := updateUserBalance s₁ input.user_id newBalance
      (.ok (completeDepositTx s₂.now .completed transactionData),
        updateTransactionsStatus s₂ transactionData.id .completed)
    else
      (.ok (completeDepositTx s₁.now .failed transactionData),
        updateTransactionsStatus s₁ transactionData.id .failed)

/-- `walletDepositInputSchema`: `amount` positive, `payment_method`
restricted to the `payment_gateway` literal. -/
def walletDepositInputValid (input : WalletDepositInput) : Prop :=
  0 < input.amount ∧ input.payment_method = .payment_gateway

instance (input : WalletDepositInput) : Decidable (walletDepositInputValid input) := by
  unfold walletDepositInputValid
  infer_instance

/-- The `walletDeposit` tRPC procedure: the zod schema validates the payload
before the handler runs; a schema failure reaches no handler code. -/
def walletDepositEndpoint (input : WalletDepositInput) (s : DBState) :
    Except HandlerError Transaction × DBState :=
  if walletDepositInputValid input then walletDeposit input s
  else (.error .invalidInput, s)

/-- `getUserById` of src/server/src/handlers/get_user_by_id.ts. -/
def getUserById (s : DBState) (uid : Nat) : Option User :=
  match selectUser s uid with
  | [] => none
  | user :: _ => some user

/-- The stored balance `getUserById` reports for a user. -/
def getUserBalance (s : DBState) (uid : Nat) : Option Rat :=
  (getUserById s uid).map User.wallet_balance

/-- `getUserTransactionsInputSchema` payload. -/
structure GetUserTransactionsInput where
  user_id : Nat
  limit : Option Nat
  offset : Option Nat
deriving Repr, DecidableEq

/-- `orderBy(desc(transactionsTable.created_at))`: newest first. -/
def newerOrSame (a b : Transaction) : Prop :=
  b.created_at ≤ a.created_at

instance : DecidableRel newerOrSame := fun a b =>
  inferInstanceAs (Decidable (b.created_at ≤ a.created_at))

instance : IsTotal Transaction newerOrSame :=
  ⟨fun a b => Nat.le_total b.created_at a.created_at⟩

instance : IsTrans Transaction newerOrSame :=
  ⟨fun _ _ _ h₁ h₂ => Nat.le_trans h₂ h₁⟩

/-- `getUserTransactions`: filter the user's rows, order newest first,
skip `offset` (default 0), return at most `limit` (default 10) rows. -/
def getUserTransactions (s : DBState) (input : GetUserTransactionsInput) :
    List Transaction :=
  let limit := input.limit.getD 10
  let offset := input.offset.getD 0
  (((s.transactions.filter (fun t => t.user_id == input.user_id)).insertionSort
      newerOrSame).drop offset).take limit

/-- Invariant: every stored wallet balance is non-negative. -/
def balancesNonneg (s : DBState) : Prop :=
  ∀ u ∈ s.users, 0 ≤ u.wallet_balance

instance (s : DBState) : Decidable (balancesNonneg s) := by
  unfold balancesNonneg
  infer_instance

/-! ### Concrete fixtures (the spec's §8 scenario values) -/

def demoUser : User :=
  { id := 1, wallet_balance := 100000, created_at := 0, updated_at := 0 }

def demoProduct : ServiceProduct :=
  { id := 1, price := 10000, is_active := true }

def demoState : DBState :=
  { users := [demoUser], products := [demoProduct], transactions := [],
    nextTxId := 1, now := 5 }

def demoTopUpInput : TopUpInput :=
  { user_id := 1, product_id := 1, target_number := "08123456789",
    payment_method := .wallet }

def demoDepositInput : WalletDepositInput :=
  { user_id := 1, amount := 25000, payment_method := .payment_gateway }

def negativeDepositInput : WalletDepositInput :=
  { user_id := 1, amount := -5000, payment_method := .payment_gateway }

def missingProductInput : TopUpInput :=
  { user_id := 1, product_id := 99, target_number := "08123456789",
    payment_method := .wallet }

/-- The low-balance user of `lowBalanceState`. -/
def lowBalanceUser : User :=
  { id := 1, wallet_balance := 5000, created_at := 0, updated_at := 0 }

/-- The spec's second §8 scenario: same user and item, balance now 5000. -/
def lowBalanceState : DBState :=
  { demoState with users := [lowBalanceUser] }

/-- A concurrent operation that runs at the await point of a top-up and
drops user 1's stored balance to 5000 before the debit re-reads it. -/
def raceInterference : DBState → DBState := fun st => updateUserBalance st 1 5000

/-- User 1 as the debit-time re-read sees it after `raceInterference`. -/
def raceUser : User :=
  { id := 1, wallet_balance := 5000, created_at := 0, updated_at := 5 }

/-! ### Helper lemmas about the store operations -/

theorem filter_id_map_comm (l : List User) (uid : Nat) (f : User → User)
    (hf : ∀ u, (f u).id = u.id) :
    (l.map f).filter (fun u => u.id == uid) = (l.filter (fun u => u.id == uid)).map f := by
  induction l with
  | nil => rfl
  | cons u l ih =>
    simp only [List.map_cons, List.filter_cons, hf u]
    by_cases h : (u.id == uid) = true
    · simp [h, ih]
    · simp [h, ih]

theorem selectUser_updateUserBalance (s : DBState) (uid uid' : Nat) (nb : Rat) :
    selectUser (updateUserBalance s uid nb) uid'
      = (selectUser s uid').map (fun u =>
          if u.id == uid then { u with wallet_balance := nb, updated_at := s.now }
          else u) := by
  unfold selectUser updateUserBalance
  exact filter_id_map_comm _ _ _ (fun u => by by_cases h : (u.id == uid) = true <;> simp [h])

theorem selectUser_insertTransaction (s : DBState) (t : Transaction) (uid : Nat) :
    selectUser (insertTransaction s t) uid = selectUser s uid := rfl

theorem selectUser_updateTransactionsFinal (s : DBState) (txId : Nat) (st : TxStatus)
    (dgf : String) (uid : Nat) :
    selectUser (updateTransactionsFinal s txId st dgf) uid = selectUser s uid := rfl

theorem selectUser_updateTransactionsStatus (s : DBState) (txId : Nat) (st : TxStatus)
    (uid : Nat) :
    selectUser (updateTransactionsStatus s txId st) uid = selectUser s uid := rfl

theorem head_selectUser_id (s : DBState) (uid : Nat) (user : User) (l : List User)
    (h : selectUser s uid = user :: l) : (user.id == uid) = true := by
  have hmem : user ∈ s.users.filter (fun u => u.id == uid) := by
    unfold selectUser at h
    rw [h]
    exact List.mem_cons_self _ _
  exact (List.mem_filter.mp hmem).2

theorem head_selectUser_mem (s : DBState) (uid : Nat) (user : User) (l : List User)
    (h : selectUser s uid = user :: l) : user ∈ s.users := by
  have hmem : user ∈ s.users.filter (fun u => u.id == uid) := by
    unfold selectUser at h
    rw [h]
    exact List.mem_cons_self _ _
  exact (List.mem_filter.mp hmem).1

theorem balancesNonneg_updateUserBalance (s : DBState) (uid : Nat) (nb : Rat)
    (hs : balancesNonneg s) (hnb : 0 ≤ nb) :
    balancesNonneg (updateUserBalance s uid nb) := by
  intro u hu
  simp only [updateUserBalance, List.mem_map] at hu
  obtain ⟨w, hw, rfl⟩ := hu
  by_cases h : (w.id == uid) = true
  · simpa [h] using hnb
  · simpa [h] using hs w hw

/-! ### The claims -/

/-- C1: when the referenced product is active, the user exists, the wallet
balance covers the price, payment is by wallet, and the gateway reports
success, `processTopUp` returns a `completed` `topup` transaction whose
amount is the snapshotted product price, and the stored balance afterwards
is the old balance minus that price. -/
theorem processTopUp_wallet_success_completes
    (s : DBState) (input : TopUpInput) (product : ServiceProduct) (ps : List ServiceProduct)
    (user : User) (us : List User)
    (hprod : selectActiveProduct s input.product_id = product :: ps)
    (huser : selectUser s input.user_id = user :: us)
    (hpm : input.payment_method = .wallet)
    (hbal : product.price ≤ user.wallet_balance) :
    (processTopUp true input s).1.map Transaction.transaction_type
        = Except.ok TransactionType.topup ∧
    (processTopUp true input s).1.map Transaction.status = Except.ok TxStatus.completed ∧
    (processTopUp true input s).1.map Transaction.amount = Except.ok product.price ∧
    getUserBalance (processTopUp true input s).2 input.user_id
        = some (user.wallet_balance - product.price) := by
  have hid : user.id = input.user_id := by
    simpa using head_selectUser_id s input.user_id user us huser
  have hnl : ¬ user.wallet_balance < product.price := not_lt.mpr hbal
  simp [processTopUp, processTopUpWith, topUpCore, hprod, huser, hpm, hnl,
    selectUser_insertTransaction, selectUser_updateTransactionsFinal,
    selectUser_updateUserBalance, getUserBalance, getUserById, finalizeTopUpTx,
    pendingTopUpTransaction, hid, Except.map]

/-- Witness for C1: the spec's §8 scenario — balance 100000, price 10000,
wallet payment, gateway success; completed with new balance 90000. -/
theorem processTopUp_wallet_success_completes_witness :
    selectActiveProduct demoState demoTopUpInput.product_id = [demoProduct] ∧
    selectUser demoState demoTopUpInput.user_id = [demoUser] ∧
    demoTopUpInput.payment_method = PaymentMethod.wallet ∧
    demoProduct.price ≤ demoUser.wallet_balance ∧
    (processTopUp true demoTopUpInput demoState).1.map Transaction.status
        = Except.ok TxStatus.completed ∧
    (processTopUp true demoTopUpInput demoState).1.map Transaction.amount
        = Except.ok 10000 ∧
    getUserBalance (processTopUp true demoTopUpInput demoState).2 1 = some 90000 := by
  have h := processTopUp_wallet_success_completes demoState demoTopUpInput demoProduct []
      demoUser [] rfl rfl rfl (by norm_num [demoProduct, demoUser])
  refine ⟨rfl, rfl, rfl, by norm_num [demoProduct, demoUser], h.2.1, ?_, ?_⟩
  · simpa [demoProduct] using h.2.2.1
  · have h4 := h.2.2.2
    norm_num [demoUser, demoProduct, demoTopUpInput] at h4
    exact h4

/-- C3: a wallet-paid top-up whose user balance is below the active
product's price fails with the insufficient-balance error and leaves the
whole state (ledger rows and balances) exactly unchanged. -/
theorem processTopUp_insufficient_balance_rejected
    (gw : Bool) (s : DBState) (input : TopUpInput)
    (product : ServiceProduct) (ps : List ServiceProduct) (user : User) (us : List User)
    (hprod : selectActiveProduct s input.product_id = product :: ps)
    (huser : selectUser s input.user_id = user :: us)
    (hpm : input.payment_method = .wallet)
    (hlt : user.wallet_balance < product.price) :
    processTopUp gw input s = (.error .insufficientBalance, s) := by
  simp [processTopUp, processTopUpWith, hprod, huser, hpm, hlt]

/-- Witness for C3: the spec's §8 scenario — balance 5000, price 10000,
wallet payment; rejected with the state unchanged. -/
theorem processTopUp_insufficient_balance_rejected_witness :
    selectActiveProduct lowBalanceState demoTopUpInput.product_id = [demoProduct] ∧
    selectUser lowBalanceState demoTopUpInput.user_id = [lowBalanceUser] ∧
    demoTopUpInput.payment_method = PaymentMethod.wallet ∧
    lowBalanceUser.wallet_balance < demoProduct.price ∧
    processTopUp true demoTopUpInput lowBalanceState
        = (.error .insufficientBalance, lowBalanceState) := by
  refine ⟨rfl, rfl, rfl, by norm_num [lowBalanceUser, demoProduct], ?_⟩
  exact processTopUp_insufficient_balance_rejected true lowBalanceState demoTopUpInput
    demoProduct [] lowBalanceUser [] rfl rfl rfl (by norm_num [lowBalanceUser, demoProduct])

/-- C4: a top-up against a product id with no active product (missing, or
present only as inactive) fails with the item-not-found error and leaves
the whole state exactly unchanged, for both payment methods and either
gateway outcome. -/
theorem processTopUp_item_not_found_rejected
    (gw : Bool) (input : TopUpInput) (s : DBState)
    (h : ∀ p ∈ s.products, p.id = input.product_id → p.is_active = false) :
    processTopUp gw input s = (.error .productNotFoundOrInactive, s) := by
  have hsel : selectActiveProduct s input.product_id = [] := by
    unfold selectActiveProduct
    rw [List.filter_eq_nil_iff]
    intro p hp
    simp only [Bool.and_eq_true, beq_iff_eq, not_and]
    intro hid
    simp [h p hp hid]
  simp [processTopUp, processTopUpWith, hsel]

/-- Witness for C4: product id 99 does not exist in `demoState`. -/
theorem processTopUp_item_not_found_rejected_witness :
    (∀ p ∈ demoState.products, p.id = missingProductInput.product_id → p.is_active = false) ∧
    processTopUp true missingProductInput demoState
        = (.error .productNotFoundOrInactive, demoState) := by
  refine ⟨?_, ?_⟩
  · intro p hp
    simp only [demoState, List.mem_singleton] at hp
    subst hp
    intro hid
    simp [demoProduct, missingProductInput] at hid
  · exact processTopUp_item_not_found_rejected true missingProductInput demoState
      (by intro p hp
          simp only [demoState, List.mem_singleton] at hp
          subst hp
          intro hid
          simp [demoProduct, missingProductInput] at hid)

/-- C5: when the active product and user exist (and a wallet payment is
covered by the balance) but the gateway reports failure, `processTopUp`
returns normally a `failed` transaction carrying the generated
`digiflazz_reference`, and no stored balance changes. -/
theorem processTopUp_gateway_failure_returns_failed
    (input : TopUpInput) (s : DBState)
    (product : ServiceProduct) (ps : List ServiceProduct) (user : User) (us : List User)
    (hprod : selectActiveProduct s input.product_id = product :: ps)
    (huser : selectUser s input.user_id = user :: us)
    (hbal : input.payment_method = .wallet → product.price ≤ user.wallet_balance) :
    (processTopUp false input s).1.map Transaction.status = Except.ok TxStatus.failed ∧
    (processTopUp false input s).1.map Transaction.digiflazz_reference
        = Except.ok (some ("DGF_" ++ toString s.now)) ∧
    ((processTopUp false input s).2).users = s.users := by
  by_cases hpm : input.payment_method = .wallet
  · have hnl := not_lt.mpr (hbal hpm)
    simp [processTopUp, processTopUpWith, topUpCore, hprod, huser, hpm, hnl,
      finalizeTopUpTx, pendingTopUpTransaction, Except.map, insertTransaction,
      updateTransactionsFinal]
  · simp [processTopUp, processTopUpWith, topUpCore, hprod, huser, hpm,
      finalizeTopUpTx, pendingTopUpTransaction, Except.map, insertTransaction,
      updateTransactionsFinal]

/-- Witness for C5: the demo scenario with the gateway forced to fail —
a `failed` transaction is returned and the balances are untouched. -/
theorem processTopUp_gateway_failure_returns_failed_witness :
    selectActiveProduct demoState demoTopUpInput.product_id = [demoProduct] ∧
    selectUser demoState demoTopUpInput.user_id = [demoUser] ∧
    (demoTopUpInput.payment_method = PaymentMethod.wallet →
      demoProduct.price ≤ demoUser.wallet_balance) ∧
    (processTopUp false demoTopUpInput demoState).1.map Transaction.status
        = Except.ok TxStatus.failed ∧
    ((processTopUp false demoTopUpInput demoState).2).users = demoState.users := by
  have h := processTopUp_gateway_failure_returns_failed demoTopUpInput demoState
      demoProduct [] demoUser [] rfl rfl (fun _ => by norm_num [demoProduct, demoUser])
  exact ⟨rfl, rfl, fun _ => by norm_num [demoProduct, demoUser], h.1, h.2.2⟩

/-- C2: starting from a state in which every stored balance is
non-negative, one `walletDeposit` call with a schema-valid amount
(`amount > 0`) and one `processTopUp` call — whatever the gateway outcome —
each leave every stored balance non-negative. -/
theorem balance_nonneg_invariant (s : DBState) (d : WalletDepositInput) (t : TopUpInput)
    (gw : Bool) (hd : 0 < d.amount) (hs : balancesNonneg s) :
    balancesNonneg (walletDeposit d s).2 ∧ balancesNonneg (processTopUp gw t s).2 := by
  constructor
  · cases huser : selectUser s d.user_id with
    | nil => simpa [walletDeposit, huser] using hs
    | cons user us =>
      have hmem := head_selectUser_mem s d.user_id user us huser
      have hnn : (0:Rat) ≤ user.wallet_balance + d.amount :=
        add_nonneg (hs user hmem) hd.le
      simp only [walletDeposit, huser, if_pos]
      exact balancesNonneg_updateUserBalance _ _ _ hs hnn
  · cases hprod : selectActiveProduct s t.product_id with
    | nil => simpa [processTopUp, processTopUpWith, hprod] using hs
    | cons product ps =>
      cases huser : selectUser s t.user_id with
      | nil => simpa [processTopUp, processTopUpWith, hprod, huser] using hs
      | cons user us =>
        have hmem := head_selectUser_mem s t.user_id user us huser
        by_cases hcond : t.payment_method = .wallet ∧ user.wallet_balance < product.price
        · simpa [processTopUp, processTopUpWith, hprod, huser, hcond] using hs
        · by_cases hws : t.payment_method = .wallet ∧ gw = true
          · have hge : product.price ≤ user.wallet_balance := by
              by_contra h
              exact hcond ⟨hws.1, not_le.mp h⟩
            have hnn : (0:Rat) ≤ user.wallet_balance - product.price :=
              sub_nonneg.mpr hge
            simp only [processTopUp, processTopUpWith, topUpCore, hprod, huser,
              if_neg hcond, id_eq, selectUser_insertTransaction]
            rw [if_pos hws]
            exact balancesNonneg_updateUserBalance _ _ _ hs hnn
          · simp only [processTopUp, processTopUpWith, topUpCore, hprod, huser,
              if_neg hcond, id_eq, selectUser_insertTransaction]
            rw [if_neg hws]
            exact hs

/-- Witness for C2: the demo state keeps non-negative balances through a
25000 deposit and a successful wallet top-up. -/
theorem balance_nonneg_invariant_witness :
    0 < demoDepositInput.amount ∧ balancesNonneg demoState ∧
    balancesNonneg (walletDeposit demoDepositInput demoState).2 ∧
    balancesNonneg (processTopUp true demoTopUpInput demoState).2 := by
  have h := balance_nonneg_invariant demoState demoDepositInput demoTopUpInput true
      (by norm_num [demoDepositInput])
      (by intro u hu
          simp only [demoState, List.mem_singleton] at hu
          subst hu
          norm_num [demoUser])
  refine ⟨by norm_num [demoDepositInput], ?_, h.1, h.2⟩
  intro u hu
  simp only [demoState, List.mem_singleton] at hu
  subst hu
  norm_num [demoUser]

/-- C6 counterexample: with the gateway succeeding and a concurrent
operation dropping the balance to 5000 (below the price 10000) between the
validation read and the debit-time re-read, the code still finalizes the
transaction as `completed` and stores the negative balance −5000 — it does
not finalize it as `failed` and it does reduce the balance. -/
theorem processTopUp_debit_race_not_failed_counterexample :
    (processTopUpWith raceInterference true demoTopUpInput demoState).1.map
        Transaction.status = Except.ok TxStatus.completed ∧
    getUserBalance (processTopUpWith raceInterference true demoTopUpInput demoState).2 1
        = some (-5000) := by
  norm_num [processTopUpWith, topUpCore, raceInterference, demoState, demoTopUpInput,
    demoUser, demoProduct, pendingTopUpTransaction, insertTransaction, updateUserBalance,
    updateTransactionsFinal, finalizeTopUpTx, selectUser, selectActiveProduct,
    getUserBalance, getUserById, Except.map]

/-- C6 amended: during a wallet-paid `processTopUp` in which the gateway
reports success, the transaction is finalized (never left `pending`), but
the debit is not guarded: whatever balance the debit-time re-read returns —
even one below the snapshotted price — the code subtracts the price from it
and finalizes the transaction as `completed`. -/
theorem processTopUp_wallet_success_debits_unconditionally
    (interfere : DBState → DBState) (s : DBState) (input : TopUpInput)
    (product : ServiceProduct) (ps : List ServiceProduct) (user : User) (us : List User)
    (current : User) (cs : List User)
    (hprod : selectActiveProduct s input.product_id = product :: ps)
    (huser : selectUser s input.user_id = user :: us)
    (hpm : input.payment_method = .wallet)
    (hbal : product.price ≤ user.wallet_balance)
    (hcur : selectUser (interfere (insertTransaction s
        (pendingTopUpTransaction s input product.price))) input.user_id = current :: cs) :
    (processTopUpWith interfere true input s).1.map Transaction.status
        = Except.ok TxStatus.completed ∧
    getUserBalance (processTopUpWith interfere true input s).2 input.user_id
        = some (current.wallet_balance - product.price) := by
  have hcid : current.id = input.user_id := by
    simpa using head_selectUser_id _ _ _ _ hcur
  have hnl := not_lt.mpr hbal
  simp only [processTopUpWith, topUpCore, hprod, huser, hpm, hnl]
  rw [if_neg (by simp)]
  rw [if_pos (by simp), hcur]
  simp [getUserBalance, getUserById, selectUser_updateTransactionsFinal,
    selectUser_updateUserBalance, hcur, hcid, finalizeTopUpTx, Except.map]

/-- Witness for the amended C6: the race scenario of the counterexample,
through the general theorem — the debit-time balance is 5000 and the stored
result is 5000 − 10000. -/
theorem processTopUp_wallet_success_debits_unconditionally_witness :
    selectActiveProduct demoState demoTopUpInput.product_id = [demoProduct] ∧
    selectUser demoState demoTopUpInput.user_id = [demoUser] ∧
    demoTopUpInput.payment_method = PaymentMethod.wallet ∧
    demoProduct.price ≤ demoUser.wallet_balance ∧
    selectUser (raceInterference (insertTransaction demoState
        (pendingTopUpTransaction demoState demoTopUpInput demoProduct.price)))
        demoTopUpInput.user_id = [raceUser] ∧
    (processTopUpWith raceInterference true demoTopUpInput demoState).1.map
        Transaction.status = Except.ok TxStatus.completed ∧
    getUserBalance (processTopUpWith raceInterference true demoTopUpInput demoState).2 1
        = some (raceUser.wallet_balance - demoProduct.price) := by
  have h := processTopUp_wallet_success_debits_unconditionally raceInterference demoState
      demoTopUpInput demoProduct [] demoUser [] raceUser []
      rfl rfl rfl (by norm_num [demoProduct, demoUser]) rfl
  exact ⟨rfl, rfl, rfl, by norm_num [demoProduct, demoUser], rfl, h.1, h.2⟩

/-- C7: the walletDeposit endpoint rejects every request whose amount is
not positive at the schema, before the handler runs: the error is returned
with the state — ledger and balances of every user, existing or not —
exactly unchanged. -/
theorem walletDeposit_rejects_nonpositive_amount
    (input : WalletDepositInput) (s : DBState) (h : input.amount ≤ 0) :
    walletDepositEndpoint input s = (.error .invalidInput, s) := by
  have hv : ¬ walletDepositInputValid input := fun hv => absurd hv.1 (not_lt.mpr h)
  simp [walletDepositEndpoint, hv]

/-- Witness for C7: a deposit of −5000 is rejected with `demoState` intact. -/
theorem walletDeposit_rejects_nonpositive_amount_witness :
    negativeDepositInput.amount ≤ 0 ∧
    walletDepositEndpoint negativeDepositInput demoState
        = (.error .invalidInput, demoState) := by
  refine ⟨by norm_num [negativeDepositInput], ?_⟩
  exact walletDeposit_rejects_nonpositive_amount negativeDepositInput demoState
    (by norm_num [negativeDepositInput])

/-- C8: depositing a positive amount A for an existing user with balance b
returns a `completed` transaction of amount A, and `getUserById` afterwards
reports the stored balance b + A. -/
theorem walletDeposit_roundtrip
    (s : DBState) (input : WalletDepositInput) (user : User) (us : List User)
    (huser : selectUser s input.user_id = user :: us) (_hA : 0 < input.amount) :
    (walletDeposit input s).1.map Transaction.status = Except.ok TxStatus.completed ∧
    (walletDeposit input s).1.map Transaction.amount = Except.ok input.amount ∧
    getUserBalance (walletDeposit input s).2 input.user_id
        = some (user.wallet_balance + input.amount) := by
  have hid : user.id = input.user_id := by
    simpa using head_selectUser_id s input.user_id user us huser
  simp [walletDeposit, huser, completeDepositTx, getUserBalance, getUserById,
    selectUser_updateTransactionsStatus, selectUser_updateUserBalance,
    selectUser_insertTransaction, hid, Except.map]

/-- Witness for C8: depositing 25000 on balance 100000 yields a completed
transaction of 25000 and the stored balance 125000. -/
theorem walletDeposit_roundtrip_witness :
    selectUser demoState demoDepositInput.user_id = [demoUser] ∧
    0 < demoDepositInput.amount ∧
    (walletDeposit demoDepositInput demoState).1.map Transaction.status
        = Except.ok TxStatus.completed ∧
    (walletDeposit demoDepositInput demoState).1.map Transaction.amount
        = Except.ok 25000 ∧
    getUserBalance (walletDeposit demoDepositInput demoState).2 1 = some 125000 := by
  have h := walletDeposit_roundtrip demoState demoDepositInput demoUser [] rfl
      (by norm_num [demoDepositInput])
  refine ⟨rfl, by norm_num [demoDepositInput], h.1, ?_, ?_⟩
  · simpa [demoDepositInput] using h.2.1
  · have h3 := h.2.2
    norm_num [demoUser, demoDepositInput] at h3
    exact h3

/-- C9: `getUserTransactions` returns only rows of the requested user,
sorted newest first by `created_at`, skips the first `offset` rows of that
order, returns at most `limit` rows, and a follow-up call whose offset is
advanced by the previous limit continues the same listing seamlessly. -/
theorem getUserTransactions_paginated_newest_first
    (s : DBState) (uid l o lnext : Nat) :
    (∀ t ∈ getUserTransactions s ⟨uid, some l, some o⟩, t.user_id = uid) ∧
    List.Sorted newerOrSame (getUserTransactions s ⟨uid, some l, some o⟩) ∧
    (getUserTransactions s ⟨uid, some l, some o⟩).length ≤ l ∧
    getUserTransactions s ⟨uid, some l, some o⟩
        ++ getUserTransactions s ⟨uid, some lnext, some (o + l)⟩
      = getUserTransactions s ⟨uid, some (l + lnext), some o⟩ := by
  have hsub : ∀ a b : Nat, List.Sublist
      ((((s.transactions.filter (fun x => x.user_id == uid)).insertionSort
          newerOrSame).drop b).take a)
      ((s.transactions.filter (fun x => x.user_id == uid)).insertionSort newerOrSame) :=
    fun a b => (List.take_sublist _ _).trans (List.drop_sublist _ _)
  refine ⟨?_, ?_, ?_, ?_⟩
  · intro t ht
    simp only [getUserTransactions, Option.getD_some] at ht
    have hmem2 : t ∈ s.transactions.filter (fun x => x.user_id == uid) :=
      (List.perm_insertionSort newerOrSame _).subset ((hsub l o).subset ht)
    simpa using (List.mem_filter.mp hmem2).2
  · have hsorted : List.Sorted newerOrSame
        ((s.transactions.filter (fun x => x.user_id == uid)).insertionSort newerOrSame) :=
      List.sorted_insertionSort newerOrSame _
    simp only [getUserTransactions, Option.getD_some]
    exact List.Pairwise.sublist (hsub l o) hsorted
  · simp only [getUserTransactions, Option.getD_some]
    exact List.length_take_le _ _
  · simp only [getUserTransactions, Option.getD_some]
    simp [List.take_add, List.drop_drop]

/-- Witness for C9: instantiation at the demo state, pages of size 2 then 3
starting at offset 0. -/
theorem getUserTransactions_paginated_newest_first_witness :
    (∀ t ∈ getUserTransactions demoState ⟨1, some 2, some 0⟩, t.user_id = 1) ∧
    List.Sorted newerOrSame (getUserTransactions demoState ⟨1, some 2, some 0⟩) ∧
    (getUserTransactions demoState ⟨1, some 2, some 0⟩).length ≤ 2 ∧
    getUserTransactions demoState ⟨1, some 2, some 0⟩
        ++ getUserTransactions demoState ⟨1, some 3, some (0 + 2)⟩
      = getUserTransactions demoState ⟨1, some (2 + 3), some 0⟩ :=
  getUserTransactions_paginated_newest_first demoState 1 2 0 3

/-- C10: omitted pagination parameters default to limit 10 and offset 0, so
a call without an explicit limit returns at most the 10 newest rows. -/
theorem getUserTransactions_defaults (s : DBState) (uid : Nat) :
    getUserTransactions s ⟨uid, none, none⟩ = getUserTransactions s ⟨uid, some 10, some 0⟩ ∧
    (getUserTransactions s ⟨uid, none, none⟩).length ≤ 10 := by
  constructor
  · rfl
  · simp only [getUserTransactions]
    exact List.length_take_le _ _

/-- Witness for C10: instantiation at the demo state. -/
theorem getUserTransactions_defaults_witness :
    getUserTransactions demoState ⟨1, none, none⟩
        = getUserTransactions demoState ⟨1, some 10, some 0⟩ ∧
    (getUserTransactions demoState ⟨1, none, none⟩).length ≤ 10 :=
  getUserTransactions_defaults demoState 1
